import Mathlib

/-!
Shallow embedding of the oclapi model and serializer layer
(`django-nonrel/ocl/oclapi/models.py` and `django-nonrel/ocl/orgs/serializers.py`),
with theorems checking the specification's claims about it.

Machine-level conventions: timestamps and primary keys are `Nat`; Python `None`
is `Option.none`; a Python dict of string extras is a `List (String × String)`;
a `save()` call is observed by a counter; fallible operations return `Except`.
-/

namespace Oclapi

/-- A character accepted by the class `[a-zA-Z0-9\-\.]` of `NAMESPACE_REGEX`
(`oclapi/models.py` line 14). -/
def isNamespaceChar (c : Char) : Bool :=
  ('a' ≤ c && c ≤ 'z') || ('A' ≤ c && c ≤ 'Z') || ('0' ≤ c && c ≤ '9') ||
    c == '-' || c == '.'

/-- Python `re.search` of the anchored pattern `^[a-zA-Z0-9\-\.]+$` on a list
of characters.  `^` forces the match to start at position 0; the class does not
contain a newline; and in Python (without `re.MULTILINE`) `$` matches at the
end of the string or just before a newline that ends the string.  Hence a match
exists exactly when the whole string is a nonempty run of class characters, or
a nonempty run of class characters followed by one final newline. -/
def namespaceRegexSearch (cs : List Char) : Bool :=
  (!cs.isEmpty && cs.all isNamespaceChar) ||
    (cs.getLast? == some '\n' && !cs.dropLast.isEmpty &&
      cs.dropLast.all isNamespaceChar)

/-- Whether `NAMESPACE_REGEX.search` finds a match in the string. -/
def mnemonicValid (s : String) : Bool :=
  namespaceRegexSearch s.data

/-- Django `RegexValidator(regex=NAMESPACE_REGEX)`: raises a `ValidationError`
exactly when `regex.search(value)` finds no match.  The same validator guards
the `mnemonic` fields of `BaseResourceModel`, `SubResourceBaseModel` and
`ResourceVersionModel`, and the `id` field of `OrganizationCreateSerializer`. -/
def namespaceValidator (s : String) : Except String Unit :=
  if mnemonicValid s then Except.ok () else Except.error "Enter a valid value."

/-- The `BaseModel` state relevant to logical deletion: the `is_active` flag
together with a count of `save()` calls performed on the instance, so a
theorem can observe whether a call persisted anything. -/
structure BaseModel where
  is_active : Bool
  saves : Nat
  deriving DecidableEq

/-- `BaseModel.soft_delete` (`oclapi/models.py` lines 41-44): if the instance
is active, clear `is_active` and `save()`; otherwise do nothing. -/
def BaseModel.soft_delete (m : BaseModel) : BaseModel :=
  if m.is_active then { m with is_active := false, saves := m.saves + 1 } else m

/-- `BaseModel.undelete` (`oclapi/models.py` lines 46-49): if the instance is
inactive, set `is_active` and `save()`; otherwise do nothing. -/
def BaseModel.undelete (m : BaseModel) : BaseModel :=
  if !m.is_active then { m with is_active := true, saves := m.saves + 1 } else m

/-- A `ResourceVersionModel` record.  `id` is the primary key; Django's
`Model.__eq__` compares instances of the same concrete model by primary key,
so the self-reference fields `previous_version` and `parent_version` are kept
as optional primary keys. -/
structure ResourceVersionModel where
  id : Nat
  mnemonic : String
  versioned_object_id : Nat
  created_at : Nat
  is_active : Bool
  released : Bool
  previous_version : Option Nat
  parent_version : Option Nat
  deriving DecidableEq

/-- `ResourceVersionModel.clean` (`oclapi/models.py` lines 134-136): raise a
`ValidationError` when `self == self.parent_version`, i.e. when the
`parent_version` reference resolves to the instance itself. -/
def ResourceVersionModel.clean (v : ResourceVersionModel) : Except String Unit :=
  if v.parent_version = some v.id then
    Except.error "version cannot be its own parent"
  else
    Except.ok ()

/-- The descending `created_at` comparison realising `order_by('-created_at')`. -/
def createdDesc (a b : ResourceVersionModel) : Bool :=
  b.created_at ≤ a.created_at

/-- `ResourceVersionModel.get_latest_version_of` (`oclapi/models.py` lines
154-157): filter the version store down to the versions of the given object
that are active, order them by `created_at` descending, and return the first,
or `None` when the query set is empty. -/
def get_latest_version_of (store : List ResourceVersionModel) (objId : Nat) :
    Option ResourceVersionModel :=
  ((store.filter fun v => v.versioned_object_id == objId && v.is_active).mergeSort
    createdDesc).head?

/-- An authentication token record, as created by `Token.objects.create`. -/
structure Token where
  user : Nat
  key : Nat
  deriving DecidableEq

/-- The `post_save` signal handler `create_auth_token` (`oclapi/models.py`
lines 160-163): when the save was a creation, call `Token.objects.create`
for the saved user instance, appending the new token to the token store;
otherwise do nothing.  The underlying create call may fail, and the handler
does not catch that failure. -/
def create_auth_token (create : Nat → Except String Token) (created : Bool)
    (inst : Nat) (tokens : List Token) : Except String (List Token) :=
  if created then
    match create inst with
    | Except.ok t => Except.ok (tokens ++ [t])
    | Except.error e => Except.error e
  else
    Except.ok tokens

/-- An `Organization` record as the serializers see it: `uuid` is the primary
key (absent before the first save), `mnemonic` the public id, and the
remaining attributes may hold Python `None`. -/
structure Organization where
  uuid : Option Nat
  mnemonic : Option String
  name : Option String
  company : Option String
  website : Option String
  extras : Option (List (String × String))
  deriving DecidableEq

/-- The constructor call `Organization(name=..., mnemonic=...)`: fields not
passed take their Django field defaults, namely the empty string for the
`CharField`s `company` and `website`, the empty dict for the `DictField`
`extras`, and no primary key yet. -/
def Organization.new (name mnemonic : Option String) : Organization :=
  { uuid := none, mnemonic := mnemonic, name := name,
    company := some "", website := some "", extras := some [] }

/-- Deserialized attributes handed to `OrganizationCreateSerializer.restore_object`;
a `none` component means the key is absent from the `attrs` dict. -/
structure CreateAttrs where
  mnemonic : Option String
  name : Option String
  company : Option String
  website : Option String
  extras : Option (List (String × String))
  deriving DecidableEq

/-- Python `'%s' % value` rendering of an optional string. -/
def optStr : Option String → String
  | none => "None"
  | some s => s

/-- The outcome of `OrganizationCreateSerializer.restore_object`: the
serializer's `_errors` dict as a key-message list, the returned object (or
`None`), and the organization store, which the method never writes to. -/
structure RestoreResult where
  errors : List (String × String)
  result : Option Organization
  stored : List Organization
  deriving DecidableEq

namespace OrganizationCreateSerializer

/-- `OrganizationCreateSerializer.restore_object` (`orgs/serializers.py` lines
35-44): look up the requested mnemonic among stored organizations; if one
exists, record a field error under the `mnemonic` key and return `None`;
otherwise build a new `Organization` from the supplied attributes, assigning
`company`, `website` and `extras` from `attrs` with default `None`. -/
def restore_object (attrs : CreateAttrs) (stored : List Organization) :
    RestoreResult :=
  let mnemonic := attrs.mnemonic
  if stored.any fun o => o.mnemonic == mnemonic then
    { errors := [("mnemonic",
        "Organization with mnemonic " ++ optStr mnemonic ++ " already exists.")],
      result := none,
      stored := stored }
  else
    let organization := Organization.new attrs.name mnemonic
    let organization := { organization with company := attrs.company }
    let organization := { organization with website := attrs.website }
    let organization := { organization with extras := attrs.extras }
    { errors := [], result := some organization, stored := stored }

end OrganizationCreateSerializer

/-- Deserialized attributes handed to `OrganizationDetailSerializer.restore_object`;
a `none` component means the key is absent from the `attrs` dict. -/
structure DetailAttrs where
  name : Option String
  company : Option String
  website : Option String
  extras : Option (List (String × String))
  deriving DecidableEq

/-- Python `attrs.get(key, fallback)`: the attribute value when the key is
present, the fallback otherwise. -/
def attrGet {α : Type} (present : Option α) (fallback : Option α) : Option α :=
  match present with
  | some v => some v
  | none => fallback

namespace OrganizationDetailSerializer

/-- `OrganizationDetailSerializer.restore_object` (`orgs/serializers.py` lines
74-79): assign `name`, `company`, `website` and `extras` from the supplied
attributes, keeping the instance's current value when an attribute is absent,
and return the instance.  No other field is assigned. -/
def restore_object (attrs : DetailAttrs) (inst : Organization) : Organization :=
  { inst with
    name := attrGet attrs.name inst.name,
    company := attrGet attrs.company inst.company,
    website := attrGet attrs.website inst.website,
    extras := attrGet attrs.extras inst.extras }

end OrganizationDetailSerializer

/-- A `BaseResourceModel` record: its mnemonic is declared `unique=True`
(`oclapi/models.py` line 67), i.e. globally unique across records of the
type. -/
structure BaseResourceModel where
  mnemonic : String
  deriving DecidableEq

/-- A `SubResourceBaseModel` record: `unique_together = ('mnemonic',
'parent_id')` (`oclapi/models.py` lines 88-90). -/
structure SubResourceBaseModel where
  mnemonic : String
  parent_id : String
  deriving DecidableEq

/-- The uniqueness key declared for `SubResourceBaseModel`. -/
def subKey (r : SubResourceBaseModel) : String × String :=
  (r.mnemonic, r.parent_id)

/-- The uniqueness key declared for `ResourceVersionModel`:
`unique_together = ('mnemonic', 'versioned_object_id')`
(`oclapi/models.py` lines 127-129). -/
def versionKey (v : ResourceVersionModel) : String × Nat :=
  (v.mnemonic, v.versioned_object_id)

/-- No two records of the list share the declared uniqueness key. -/
def uniqueBy {α β : Type} (key : α → β) (rs : List α) : Prop :=
  rs.Pairwise fun a b => key a ≠ key b

/-- Insertion under a declared unique constraint, as the storage layer
enforces it: the insert is refused when a stored record already carries the
same key, and prepends the record otherwise. -/
def insertUnique {α β : Type} [DecidableEq β] (key : α → β) (r : α)
    (rs : List α) : Option (List α) :=
  if rs.any fun o => key o = key r then none else some (r :: rs)

theorem insertUnique_preserves {α β : Type} [DecidableEq β] (key : α → β)
    (r : α) (rs rs' : List α) (h : uniqueBy key rs)
    (hins : insertUnique key r rs = some rs') : uniqueBy key rs' := by
  unfold insertUnique at hins
  split at hins
  · exact absurd hins (by simp)
  · rename_i hnone
    cases hins
    refine List.Pairwise.cons ?_ h
    intro b hb
    simp only [List.any_eq_true, decide_eq_true_eq] at hnone
    intro hkey
    exact hnone ⟨b, hb, hkey.symm⟩

/-- A concrete version store exercising `get_latest_version_of`: object 5 has
an inactive version created at 9 and an active version created at 3, and
object 6 has an active version of its own. -/
def sampleVersions : List ResourceVersionModel :=
  [{ id := 9, mnemonic := "v9", versioned_object_id := 5, created_at := 9,
     is_active := false, released := false, previous_version := none,
     parent_version := none },
   { id := 3, mnemonic := "v3", versioned_object_id := 5, created_at := 3,
     is_active := true, released := false, previous_version := none,
     parent_version := none },
   { id := 6, mnemonic := "v6", versioned_object_id := 6, created_at := 6,
     is_active := true, released := false, previous_version := none,
     parent_version := none }]

/-- The only active version of object 5 in `sampleVersions`. -/
def sampleLatest : ResourceVersionModel :=
  { id := 3, mnemonic := "v3", versioned_object_id := 5, created_at := 3,
    is_active := true, released := false, previous_version := none,
    parent_version := none }

/-- C3: `soft_delete()` on an active instance clears `is_active` and performs
one save, `undelete()` on an inactive instance sets `is_active` and performs
one save, `soft_delete()` followed by `undelete()` restores `is_active = true`,
and each operation applied twice equals applying it once, with the redundant
second call performing no save. -/
theorem soft_delete_undelete_spec (m : BaseModel) :
    (m.is_active = true →
        m.soft_delete = { is_active := false, saves := m.saves + 1 }) ∧
    (m.is_active = false →
        m.undelete = { is_active := true, saves := m.saves + 1 }) ∧
    m.soft_delete.undelete.is_active = true ∧
    m.soft_delete.soft_delete = m.soft_delete ∧
    m.undelete.undelete = m.undelete := by
  rcases m with ⟨a, s⟩
  cases a <;> simp [BaseModel.soft_delete, BaseModel.undelete]

/-- Witness for C3 at a concrete active and a concrete inactive instance. -/
theorem soft_delete_undelete_spec_witness :
    (BaseModel.mk true 0).soft_delete = { is_active := false, saves := 1 } ∧
    (BaseModel.mk false 0).undelete = { is_active := true, saves := 1 } :=
  ⟨(soft_delete_undelete_spec ⟨true, 0⟩).1 rfl,
   (soft_delete_undelete_spec ⟨false, 0⟩).2.1 rfl⟩

/-- C4: `clean()` raises the validation error exactly when the instance's
`parent_version` is the instance itself; every other `parent_version` value,
including `None` and any distinct version, passes the check. -/
theorem clean_spec (v : ResourceVersionModel) :
    (v.parent_version = some v.id →
        v.clean = Except.error "version cannot be its own parent") ∧
    (v.parent_version ≠ some v.id → v.clean = Except.ok ()) := by
  constructor <;> intro h <;> simp [ResourceVersionModel.clean, h]

/-- Witness for C4: a self-parented version fails `clean`, and the same
version with `parent_version = None` passes. -/
theorem clean_spec_witness :
    ResourceVersionModel.clean
        { id := 1, mnemonic := "v1", versioned_object_id := 4, created_at := 0,
          is_active := true, released := false, previous_version := none,
          parent_version := some 1 } =
      Except.error "version cannot be its own parent" ∧
    ResourceVersionModel.clean
        { id := 1, mnemonic := "v1", versioned_object_id := 4, created_at := 0,
          is_active := true, released := false, previous_version := none,
          parent_version := none } =
      Except.ok () :=
  ⟨(clean_spec _).1 rfl, (clean_spec _).2 (by simp)⟩

/-- C7: when the save is a creation, the `post_save` handler appends exactly
one token, the one produced by the underlying create call; when that call
fails, the failure is propagated rather than caught; when the save is not a
creation, no token is created. -/
theorem create_auth_token_spec (create : Nat → Except String Token)
    (inst : Nat) (tokens : List Token) :
    (∀ t, create inst = Except.ok t →
        create_auth_token create true inst tokens = Except.ok (tokens ++ [t])) ∧
    (∀ e, create inst = Except.error e →
        create_auth_token create true inst tokens = Except.error e) ∧
    create_auth_token create false inst tokens = Except.ok tokens := by
  refine ⟨?_, ?_, rfl⟩ <;> intro x h <;> simp [create_auth_token, h]

/-- Witness for C7 with a concrete succeeding and a concrete failing create
call. -/
theorem create_auth_token_spec_witness :
    create_auth_token (fun u => Except.ok ⟨u, 7⟩) true 3 [] =
      Except.ok [⟨3, 7⟩] ∧
    create_auth_token (fun _ => Except.error "storage down") true 3 [] =
      Except.error "storage down" :=
  ⟨(create_auth_token_spec (fun u => Except.ok ⟨u, 7⟩) 3 []).1 ⟨3, 7⟩ rfl,
   (create_auth_token_spec (fun _ => Except.error "storage down") 3 []).2.1
      "storage down" rfl⟩

/-- C10: the detail serializer's `restore_object` never changes the
instance's `mnemonic` (the public id) or its `uuid`, whatever attributes are
supplied. -/
theorem detail_restore_preserves_identity (attrs : DetailAttrs)
    (inst : Organization) :
    (OrganizationDetailSerializer.restore_object attrs inst).mnemonic =
        inst.mnemonic ∧
    (OrganizationDetailSerializer.restore_object attrs inst).uuid = inst.uuid :=
  ⟨rfl, rfl⟩

/-- C6: the detail serializer's `restore_object` sets each of `name`,
`company`, `website` and `extras` to the supplied value when the attribute is
present and keeps the instance's prior value when it is absent; in particular
an update supplying only `name` leaves `company`, `website` and `extras`
unchanged. -/
theorem detail_restore_merge_spec (attrs : DetailAttrs) (inst : Organization) :
    ((attrs.name = none →
        (OrganizationDetailSerializer.restore_object attrs inst).name =
          inst.name) ∧
      ∀ v, attrs.name = some v →
        (OrganizationDetailSerializer.restore_object attrs inst).name =
          some v) ∧
    ((attrs.company = none →
        (OrganizationDetailSerializer.restore_object attrs inst).company =
          inst.company) ∧
      ∀ v, attrs.company = some v →
        (OrganizationDetailSerializer.restore_object attrs inst).company =
          some v) ∧
    ((attrs.website = none →
        (OrganizationDetailSerializer.restore_object attrs inst).website =
          inst.website) ∧
      ∀ v, attrs.website = some v →
        (OrganizationDetailSerializer.restore_object attrs inst).website =
          some v) ∧
    ((attrs.extras = none →
        (OrganizationDetailSerializer.restore_object attrs inst).extras =
          inst.extras) ∧
      ∀ v, attrs.extras = some v →
        (OrganizationDetailSerializer.restore_object attrs inst).extras =
          some v) := by
  refine ⟨⟨?_, ?_⟩, ⟨?_, ?_⟩, ⟨?_, ?_⟩, ⟨?_, ?_⟩⟩ <;>
    intro h <;>
    first
      | simp [OrganizationDetailSerializer.restore_object, attrGet, h]
      | (intro hv
         simp [OrganizationDetailSerializer.restore_object, attrGet, hv])

/-- Witness for C6: an update supplying only `name` changes `name` and leaves
`company`, `website` and `extras` at their prior values. -/
theorem detail_restore_merge_spec_witness :
    (OrganizationDetailSerializer.restore_object
        { name := some "New Name", company := none, website := none,
          extras := none }
        { uuid := some 11, mnemonic := some "OCL", name := some "Old",
          company := some "Acme", website := some "http:early",
          extras := some [("k", "v")] }).name = some "New Name" ∧
    (OrganizationDetailSerializer.restore_object
        { name := some "New Name", company := none, website := none,
          extras := none }
        { uuid := some 11, mnemonic := some "OCL", name := some "Old",
          company := some "Acme", website := some "http:early",
          extras := some [("k", "v")] }).company = some "Acme" := by
  constructor
  · exact (detail_restore_merge_spec _ _).1.2 "New Name" rfl
  · exact (detail_restore_merge_spec _ _).2.1.1 rfl

/-- C1: the create serializer's `restore_object` on a mnemonic already held
by a stored organization records a field error under the `mnemonic` key,
returns `None` and leaves the store unchanged; on a mnemonic held by no
stored organization it returns a new `Organization` built from the supplied
attributes, again leaving the store unchanged. -/
theorem restore_object_create_spec (attrs : CreateAttrs)
    (stored : List Organization) :
    ((∃ o ∈ stored, o.mnemonic = attrs.mnemonic) →
      OrganizationCreateSerializer.restore_object attrs stored =
        { errors := [("mnemonic", "Organization with mnemonic " ++
              optStr attrs.mnemonic ++ " already exists.")],
          result := none,
          stored := stored }) ∧
    ((∀ o ∈ stored, o.mnemonic ≠ attrs.mnemonic) →
      OrganizationCreateSerializer.restore_object attrs stored =
        { errors := [],
          result := some
            { uuid := none, mnemonic := attrs.mnemonic, name := attrs.name,
              company := attrs.company, website := attrs.website,
              extras := attrs.extras },
          stored := stored }) := by
  constructor <;> intro h
  · have hany : (stored.any fun o => o.mnemonic == attrs.mnemonic) = true := by
      obtain ⟨o, ho, he⟩ := h
      simp only [List.any_eq_true, beq_iff_eq]
      exact ⟨o, ho, he⟩
    simp [OrganizationCreateSerializer.restore_object, hany]
  · have hany : (stored.any fun o => o.mnemonic == attrs.mnemonic) = false := by
      simp only [List.any_eq_false, beq_iff_eq]
      exact h
    simp [OrganizationCreateSerializer.restore_object, hany, Organization.new]

/-- Witness for C1: with one stored organization of mnemonic `OCL`, creating
`OCL` again yields the field error and no object, while creating `WHO`
yields a new organization. -/
theorem restore_object_create_spec_witness :
    OrganizationCreateSerializer.restore_object
        { mnemonic := some "OCL", name := some "dup", company := none,
          website := none, extras := none }
        [{ uuid := some 1, mnemonic := some "OCL", name := some "Open",
           company := none, website := none, extras := none }] =
      { errors := [("mnemonic",
          "Organization with mnemonic OCL already exists.")],
        result := none,
        stored := [{ uuid := some 1, mnemonic := some "OCL",
                     name := some "Open", company := none, website := none,
                     extras := none }] } ∧
    OrganizationCreateSerializer.restore_object
        { mnemonic := some "WHO", name := some "World", company := none,
          website := none, extras := none }
        [{ uuid := some 1, mnemonic := some "OCL", name := some "Open",
           company := none, website := none, extras := none }] =
      { errors := [],
        result := some
          { uuid := none, mnemonic := some "WHO", name := some "World",
            company := none, website := none, extras := none },
        stored := [{ uuid := some 1, mnemonic := some "OCL",
                     name := some "Open", company := none, website := none,
                     extras := none }] } := by
  constructor
  · exact (restore_object_create_spec _ _).1 ⟨_, List.mem_singleton.mpr rfl, rfl⟩
  · exact (restore_object_create_spec _ _).2 (by simp)

/-- C9: on a successful create, each optional field absent from the supplied
attributes is explicitly `None` on the returned organization, overriding the
model defaults (empty string for `company` and `website`, empty dict for
`extras`) that the bare constructor would have left in place. -/
theorem create_absent_optionals_none (attrs : CreateAttrs)
    (stored : List Organization)
    (h : ∀ o ∈ stored, o.mnemonic ≠ attrs.mnemonic)
    (hc : attrs.company = none) (hw : attrs.website = none)
    (he : attrs.extras = none) :
    ∃ org, (OrganizationCreateSerializer.restore_object attrs stored).result =
        some org ∧
      org.company = none ∧ org.website = none ∧ org.extras = none ∧
      (Organization.new attrs.name attrs.mnemonic).company = some "" ∧
      (Organization.new attrs.name attrs.mnemonic).website = some "" ∧
      (Organization.new attrs.name attrs.mnemonic).extras = some [] := by
  have hany : (stored.any fun o => o.mnemonic == attrs.mnemonic) = false := by
    simp only [List.any_eq_false, beq_iff_eq]
    exact h
  refine ⟨{ uuid := none, mnemonic := attrs.mnemonic, name := attrs.name,
            company := attrs.company, website := attrs.website,
            extras := attrs.extras }, ?_, hc, hw, he, rfl, rfl, rfl⟩
  simp [OrganizationCreateSerializer.restore_object, hany, Organization.new]

/-- Witness for C9: creating `WHO` into an empty store with only `id` and
`name` supplied yields an organization whose `company`, `website` and
`extras` are `None`. -/
theorem create_absent_optionals_none_witness :
    ∃ org,
      (OrganizationCreateSerializer.restore_object
          { mnemonic := some "WHO", name := some "World", company := none,
            website := none, extras := none } []).result = some org ∧
      org.company = none ∧ org.website = none ∧ org.extras = none ∧
      (Organization.new (some "World") (some "WHO")).company = some "" ∧
      (Organization.new (some "World") (some "WHO")).website = some "" ∧
      (Organization.new (some "World") (some "WHO")).extras = some [] :=
  create_absent_optionals_none
    { mnemonic := some "WHO", name := some "World", company := none,
      website := none, extras := none } [] (by simp) rfl rfl rfl

/-- C8: insertion under the declared unique constraints preserves each
uniqueness invariant: global mnemonic uniqueness for `BaseResourceModel`,
uniqueness of the `(mnemonic, parent_id)` pair for `SubResourceBaseModel`,
and uniqueness of the `(mnemonic, versioned_object_id)` pair for
`ResourceVersionModel`. -/
theorem uniqueness_scopes_preserved :
    (∀ (r : BaseResourceModel) (rs rs' : List BaseResourceModel),
        uniqueBy BaseResourceModel.mnemonic rs →
        insertUnique BaseResourceModel.mnemonic r rs = some rs' →
        uniqueBy BaseResourceModel.mnemonic rs') ∧
    (∀ (r : SubResourceBaseModel) (rs rs' : List SubResourceBaseModel),
        uniqueBy subKey rs → insertUnique subKey r rs = some rs' →
        uniqueBy subKey rs') ∧
    (∀ (v : ResourceVersionModel) (vs vs' : List ResourceVersionModel),
        uniqueBy versionKey vs → insertUnique versionKey v vs = some vs' →
        uniqueBy versionKey vs') :=
  ⟨fun r rs rs' => insertUnique_preserves _ r rs rs',
   fun r rs rs' => insertUnique_preserves subKey r rs rs',
   fun v vs vs' => insertUnique_preserves versionKey v vs vs'⟩

/-- Witness for C8: inserting into the empty store keeps each invariant. -/
theorem uniqueness_scopes_preserved_witness :
    uniqueBy BaseResourceModel.mnemonic [⟨"OCL"⟩] ∧
    uniqueBy subKey [⟨"src", "org1"⟩] ∧
    uniqueBy versionKey
      [{ id := 1, mnemonic := "v1", versioned_object_id := 4, created_at := 0,
         is_active := true, released := false, previous_version := none,
         parent_version := none }] :=
  ⟨uniqueness_scopes_preserved.1 ⟨"OCL"⟩ [] _ List.Pairwise.nil rfl,
   uniqueness_scopes_preserved.2.1 ⟨"src", "org1"⟩ [] _ List.Pairwise.nil rfl,
   uniqueness_scopes_preserved.2.2
     { id := 1, mnemonic := "v1", versioned_object_id := 4, created_at := 0,
       is_active := true, released := false, previous_version := none,
       parent_version := none } [] _ List.Pairwise.nil rfl⟩

/-- C2: `get_latest_version_of` returns `None` when the object has zero
versions; any version it returns is an active version of the object whose
`created_at` is greatest among the object's active versions (so with active
versions created at t1 < t2 < t3 it returns the t3 version, and an inactive
version is never returned even if most recently created); and it returns a
version whenever the object has at least one active version. -/
theorem get_latest_version_of_spec (store : List ResourceVersionModel)
    (objId : Nat) :
    (store.filter (fun v => v.versioned_object_id == objId) = [] →
        get_latest_version_of store objId = none) ∧
    (∀ v, get_latest_version_of store objId = some v →
        v ∈ store ∧ v.versioned_object_id = objId ∧ v.is_active = true ∧
        ∀ w ∈ store, w.versioned_object_id = objId → w.is_active = true →
          w.created_at ≤ v.created_at) ∧
    ((∃ w ∈ store, w.versioned_object_id = objId ∧ w.is_active = true) →
        ∃ v, get_latest_version_of store objId = some v) := by
  have htrans : ∀ a b c : ResourceVersionModel,
      createdDesc a b → createdDesc b c → createdDesc a c := by
    intro a b c hab hbc
    simp only [createdDesc, decide_eq_true_eq] at hab hbc ⊢
    omega
  have htotal : ∀ a b : ResourceVersionModel,
      createdDesc a b || createdDesc b a := by
    intro a b
    simp only [createdDesc, Bool.or_eq_true, decide_eq_true_eq]
    omega
  refine ⟨?_, ?_, ?_⟩
  · intro hnil
    have hl : store.filter
        (fun v => v.versioned_object_id == objId && v.is_active) = [] := by
      rw [List.filter_eq_nil_iff] at hnil ⊢
      intro a ha h
      exact hnil a ha (by simp_all)
    simp [get_latest_version_of, hl]
  · intro v hv
    obtain ⟨t, ht⟩ := List.head?_eq_some_iff.mp hv
    have hvmem : v ∈ store.filter
        (fun x => x.versioned_object_id == objId && x.is_active) := by
      have hms : v ∈ (store.filter
          (fun x => x.versioned_object_id == objId && x.is_active)).mergeSort
            createdDesc := by
        rw [ht]
        exact List.mem_cons_self v t
      exact List.mem_mergeSort.mp hms
    obtain ⟨hvstore, hvp⟩ := List.mem_filter.mp hvmem
    simp only [Bool.and_eq_true, beq_iff_eq] at hvp
    refine ⟨hvstore, hvp.1, hvp.2, ?_⟩
    intro w hw hobj hact
    have hwl : w ∈ store.filter
        (fun x => x.versioned_object_id == objId && x.is_active) :=
      List.mem_filter.mpr ⟨hw, by simp [hobj, hact]⟩
    have hwms : w ∈ (store.filter
        (fun x => x.versioned_object_id == objId && x.is_active)).mergeSort
          createdDesc :=
      List.mem_mergeSort.mpr hwl
    rw [ht] at hwms
    rcases List.mem_cons.mp hwms with heq | hwt
    · rw [heq]
    · have hsorted := List.sorted_mergeSort htrans htotal
        (store.filter (fun x => x.versioned_object_id == objId && x.is_active))
      rw [ht] at hsorted
      have hrel := (List.pairwise_cons.mp hsorted).1 w hwt
      simp only [createdDesc, decide_eq_true_eq] at hrel
      exact hrel
  · rintro ⟨w, hw, hobj, hact⟩
    have hwl : w ∈ store.filter
        (fun x => x.versioned_object_id == objId && x.is_active) :=
      List.mem_filter.mpr ⟨hw, by simp [hobj, hact]⟩
    have hne : (store.filter
        (fun x => x.versioned_object_id == objId && x.is_active)).mergeSort
          createdDesc ≠ [] := by
      intro hn
      have hwms : w ∈ (store.filter
          (fun x => x.versioned_object_id == objId && x.is_active)).mergeSort
            createdDesc :=
        List.mem_mergeSort.mpr hwl
      rw [hn] at hwms
      exact List.not_mem_nil w hwms
    obtain ⟨v, t, hvt⟩ := List.exists_cons_of_ne_nil hne
    exact ⟨v, by simp [get_latest_version_of, hvt]⟩

/-- Witness for C2: in `sampleVersions` the latest version of object 5 is the
active version created at 3 — the inactive version created at 9 and the other
object's version are passed over — and it dominates every active version of
object 5. -/
theorem get_latest_version_of_spec_witness :
    sampleLatest ∈ sampleVersions ∧
    sampleLatest.versioned_object_id = 5 ∧ sampleLatest.is_active = true ∧
    ∀ w ∈ sampleVersions, w.versioned_object_id = 5 → w.is_active = true →
      w.created_at ≤ sampleLatest.created_at := by
  have hfil : sampleVersions.filter
      (fun x => x.versioned_object_id == 5 && x.is_active) = [sampleLatest] := by
    decide
  have hv : get_latest_version_of sampleVersions 5 = some sampleLatest := by
    simp only [get_latest_version_of, hfil, List.mergeSort_singleton,
      List.head?_cons]
  exact (get_latest_version_of_spec sampleVersions 5).2.1 sampleLatest hv

/-- C5 (counterexample): the string consisting of `abc` and a trailing
newline contains a character outside the class `[a-zA-Z0-9\-.]`, yet the
validator built on `NAMESPACE_REGEX` accepts it, because in Python the `$`
anchor also matches just before a newline that ends the string. -/
theorem namespaceValidator_newline_counterexample :
    ('\n' ∈ "abc\n".data ∧ isNamespaceChar '\n' = false) ∧
    namespaceValidator "abc\n" = Except.ok () :=
  ⟨by decide, rfl⟩

/-- C5 (amended): every mnemonic that is empty or contains an out-of-class
character fails validation with a validation error, except for the strings
consisting of a nonempty run of class characters followed by one trailing
newline, which the Python `$` anchor lets through. -/
theorem namespaceValidator_amended_spec (s : String)
    (hbad : s.data = [] ∨ ∃ c ∈ s.data, isNamespaceChar c = false)
    (hexc : ¬(s.data.getLast? = some '\n' ∧ s.data.dropLast ≠ [] ∧
        s.data.dropLast.all isNamespaceChar = true)) :
    namespaceValidator s = Except.error "Enter a valid value." := by
  have h1 : (!s.data.isEmpty && s.data.all isNamespaceChar) = false := by
    rcases hbad with h | ⟨c, hc, hbadc⟩
    · simp [h]
    · have hall : s.data.all isNamespaceChar = false :=
        List.all_eq_false.mpr ⟨c, hc, by simp [hbadc]⟩
      simp [hall]
  have h2 : (s.data.getLast? == some '\n' && !s.data.dropLast.isEmpty &&
      s.data.dropLast.all isNamespaceChar) = false := by
    by_contra hne
    rw [Bool.not_eq_false] at hne
    simp only [Bool.and_eq_true, beq_iff_eq, Bool.not_eq_true',
      List.isEmpty_eq_false] at hne
    exact hexc ⟨hne.1.1, hne.1.2, hne.2⟩
  have hsearch : namespaceRegexSearch s.data = false := by
    unfold namespaceRegexSearch
    rw [h1, h2]
    rfl
  simp [namespaceValidator, mnemonicValid, hsearch]

/-- Witness for C5 (amended): a mnemonic containing a space is rejected. -/
theorem namespaceValidator_amended_spec_witness :
    namespaceValidator "not a mnemonic" =
      Except.error "Enter a valid value." :=
  namespaceValidator_amended_spec "not a mnemonic"
    (Or.inr ⟨' ', by decide, by decide⟩) (by decide)

end Oclapi
